import Mathlib

/-!
Shallow embedding of the Ben-Or consensus node implemented in
`src/nodes/node.ts`, together with proofs about its tally engine,
its driver loop and its HTTP control surface.

Conventions of the embedding:
* The tri-valued wire domain {0, 1, "?"} is the inductive `Val`; the
  extra constructor `junk` stands for any JavaScript value outside
  {0, 1, "?"} (the handlers store such values unvalidated, the tallies
  ignore them).
* `NodeState` mirrors the mutable `state` record: fields that are
  `null` for faulty nodes are `Option`s.
* The driver's randomness (`Math.random() < 0.5 ? 0 : 1`) is an oracle
  parameter `coin : Bool` (`true` picks 0, `false` picks 1).
* The unbounded `while` loop of `startConsensus` is modelled with
  explicit fuel; per-round message deliveries and coins come from a
  schedule `Nat → RoundInput` indexed by the round number `k`.
* HTTP handlers are pure functions returning the numeric status code
  and the updated server state.
-/

namespace BenOrNode

/-- The message/value domain: 0, 1, "?" and a representative of any
other JavaScript value. -/
inductive Val where
  | v0
  | v1
  | vq
  | junk
deriving DecidableEq, Repr

/-- A buffered message entry `{ value, from }`. -/
structure Msg where
  value : Val
  sender : Int
deriving DecidableEq, Repr

/-- The node's mutable `state` record: `x`, `decided`, `k` are `null`
(`none`) exactly when the node is faulty. -/
structure NodeState where
  killed : Bool
  x : Option Val
  decided : Option Bool
  k : Option Nat
deriving DecidableEq, Repr

/-- Construction-time configuration of a node. -/
structure Cfg where
  N : Nat
  F : Nat
  isFaulty : Bool
  initialValue : Val
deriving DecidableEq, Repr

/-- Initial `state` record built in `node(...)`. -/
def initState (cfg : Cfg) : NodeState :=
  { killed := false
    x := if cfg.isFaulty then none else some cfg.initialValue
    decided := if cfg.isFaulty then none else some false
    k := if cfg.isFaulty then none else some 0 }

/-- Phase-1 majority threshold `Math.floor(N / 2) + 1`. -/
def majority (N : Nat) : Nat := N / 2 + 1

/-- Phase-2 decision threshold `Math.floor((N - F) / 2) + 1`. -/
def decisionThreshold (N F : Nat) : Nat := (N - F) / 2 + 1

/-- Phase-2 adoption threshold `Math.floor((N - F) / 3) + 1`. -/
def adoptionThreshold (N F : Nat) : Nat := (N - F) / 3 + 1

/-- The count accumulated in `counts[t]` for `t ∈ {0, 1, "?"}`: one for
the node's own `x` when it equals `t`, plus one per buffered message
whose value equals `t`.  This is exactly what both tally loops compute
at the keys they later read. -/
def countValue (x : Option Val) (msgs : List Msg) (t : Val) : Nat :=
  (if x = some t then 1 else 0) + msgs.countP (fun m => decide (m.value = t))

/-- `processPhaseOneMessages`, applied to the phase-1 bucket of the
current round (the function reads `phaseOneMessages[state.k]`). -/
def processPhaseOneMessages (cfg : Cfg) (s : NodeState) (msgs : List Msg) :
    NodeState :=
  if s.killed = true then s
  else
    let c0 := countValue s.x msgs .v0
    let c1 := countValue s.x msgs .v1
    if c0 ≥ majority cfg.N then { s with x := some .v0 }
    else if c1 ≥ majority cfg.N then { s with x := some .v1 }
    else { s with x := some .vq }

/-- `processPhaseTwoMessages`, applied to the phase-2 bucket of the
current round; `coin` is the oracle for `Math.random() < 0.5 ? 0 : 1`.
The count of `"?"` is computed (`cq`) but no branch reads it. -/
def processPhaseTwoMessages (cfg : Cfg) (s : NodeState) (msgs : List Msg)
    (coin : Bool) : NodeState :=
  if s.killed = true then s
  else
    let c0 := countValue s.x msgs .v0
    let c1 := countValue s.x msgs .v1
    let _cq := countValue s.x msgs .vq
    if c0 ≥ decisionThreshold cfg.N cfg.F ∧ s.x = some .v0 then
      { s with decided := some true }
    else if c1 ≥ decisionThreshold cfg.N cfg.F ∧ s.x = some .v1 then
      { s with decided := some true }
    else if c0 ≥ adoptionThreshold cfg.N cfg.F then { s with x := some .v0 }
    else if c1 ≥ adoptionThreshold cfg.N cfg.F then { s with x := some .v1 }
    else { s with x := some (if coin then .v0 else .v1) }

/-- `runPhaseOne` without its transport effects: skip when killed or
already decided, otherwise tally the phase-1 bucket. -/
def runPhaseOne (cfg : Cfg) (s : NodeState) (msgs : List Msg) : NodeState :=
  if s.killed = true ∨ s.decided = some true then s
  else processPhaseOneMessages cfg s msgs

/-- `runPhaseTwo` without its transport effects. -/
def runPhaseTwo (cfg : Cfg) (s : NodeState) (msgs : List Msg) (coin : Bool) :
    NodeState :=
  if s.killed = true ∨ s.decided = some true then s
  else processPhaseTwoMessages cfg s msgs coin

/-- One iteration of the `while` body of `startConsensus`: phase 1,
phase 2, then `k := k + 1` when still undecided and alive. -/
def roundStep (cfg : Cfg) (s : NodeState) (m1 m2 : List Msg) (coin : Bool) :
    NodeState :=
  let s1 := runPhaseOne cfg s m1
  let s2 := runPhaseTwo cfg s1 m2 coin
  if ¬s2.decided = some true ∧ ¬s2.killed = true then
    { s2 with k := s2.k.map (fun n => n + 1) }
  else s2

/-- Messages and coin that round `k` would observe. -/
structure RoundInput where
  m1 : List Msg
  m2 : List Msg
  coin : Bool

/-- The `while (!state.decided && !state.killed)` loop of
`startConsensus`, with explicit fuel. -/
def consensusLoop (cfg : Cfg) (sched : Nat → RoundInput) :
    Nat → NodeState → NodeState
  | 0, s => s
  | fuel + 1, s =>
    if ¬s.decided = some true ∧ ¬s.killed = true then
      let inp := sched (s.k.getD 0)
      consensusLoop cfg sched fuel (roundStep cfg s inp.m1 inp.m2 inp.coin)
    else s

/-- `startConsensus`: the `N === 1 && !isFaulty` shortcut decides
immediately and performs no rounds; otherwise the round loop runs. -/
def startConsensus (cfg : Cfg) (sched : Nat → RoundInput) (fuel : Nat)
    (s : NodeState) : NodeState :=
  if cfg.N = 1 ∧ cfg.isFaulty = false then { s with decided := some true }
  else consensusLoop cfg sched fuel s

/-- A `/message` request body `{ phase, value, k, from }`.  `phase` and
`k` are arbitrary (the handler validates nothing); an ill-typed `phase`
behaves like any integer other than 1 and 2 under `===`. -/
structure Body where
  phase : Int
  value : Val
  k : Int
  sender : Int

/-- Server-side state visible to the HTTP handlers: the node state, the
two round-indexed message buffers and the `consensusRunning` flag. -/
structure ServerState where
  node : NodeState
  phaseOneMessages : Int → List Msg
  phaseTwoMessages : Int → List Msg
  consensusRunning : Bool

/-- `messages[k].push({ value, from })` on a `Record`-backed buffer. -/
def pushMsg (buf : Int → List Msg) (k : Int) (m : Msg) : Int → List Msg :=
  fun j => if j = k then buf j ++ [m] else buf j

/-- The `POST /message` handler: rejects with 500 when killed or
faulty, otherwise stores the body into the bucket selected by `phase`
(1 or 2; anything else is silently dropped) and answers 200. -/
def messageHandler (cfg : Cfg) (st : ServerState) (b : Body) :
    Nat × ServerState :=
  if st.node.killed = true ∨ cfg.isFaulty = true then (500, st)
  else if b.phase = 1 then
    (200, { st with
      phaseOneMessages := pushMsg st.phaseOneMessages b.k ⟨b.value, b.sender⟩ })
  else if b.phase = 2 then
    (200, { st with
      phaseTwoMessages := pushMsg st.phaseTwoMessages b.k ⟨b.value, b.sender⟩ })
  else (200, st)

/-- The `GET /start` handler: 500 when faulty or killed; otherwise 200
and, when not already running, raises `consensusRunning` (the driver is
then launched asynchronously). -/
def startHandler (cfg : Cfg) (st : ServerState) : Nat × ServerState :=
  if cfg.isFaulty = true ∨ st.node.killed = true then (500, st)
  else (200, if st.consensusRunning then st
             else { st with consensusRunning := true })

/-- The `GET /stop` handler: always 200, sets `killed` and clears
`consensusRunning`. -/
def stopHandler (st : ServerState) : Nat × ServerState :=
  (200, { st with
    node := { st.node with killed := true }
    consensusRunning := false })

/-- The HTTP operations of the control surface. -/
inductive Op where
  | statusOp
  | getStateOp
  | startOp
  | stopOp
  | messageOp (b : Body)

/-- Dispatch of one HTTP request; `/getState` always answers 200 with
the current `state` record, `/status` answers 500 iff faulty. -/
def handle (cfg : Cfg) (st : ServerState) : Op → Nat × ServerState
  | .statusOp => (if cfg.isFaulty then 500 else 200, st)
  | .getStateOp => (200, st)
  | .startOp => startHandler cfg st
  | .stopOp => stopHandler st
  | .messageOp b => messageHandler cfg st b

/-- Spec-side phase-1 tally, written from the specification's words:
counts over {0, 1} include the node's own `x` iff it is 0 or 1 plus
every received value that is 0 or 1; with `majority = ⌊N/2⌋ + 1` the
next `x` is 0, else 1, else `?`. -/
def phaseOneSpec (N : Nat) (x : Val) (vs : List Val) : Val :=
  let c0 := (if x = .v0 then 1 else 0) + vs.countP (fun v => decide (v = .v0))
  let c1 := (if x = .v1 then 1 else 0) + vs.countP (fun v => decide (v = .v1))
  if c0 ≥ majority N then .v0
  else if c1 ≥ majority N then .v1
  else .vq

/-- Spec-side phase-2 tally, written from the specification's words:
counts over {0, 1, ?} with the node's own `x` included; first-match
rules decide on 0 or 1 (own value must agree, `x` unchanged), else
adopt 0 or 1, else flip the coin.  Returns `(decided, next x)`. -/
def phaseTwoSpec (N F : Nat) (x : Val) (vs : List Val) (coin : Bool) :
    Bool × Val :=
  let c0 := (if x = .v0 then 1 else 0) + vs.countP (fun v => decide (v = .v0))
  let c1 := (if x = .v1 then 1 else 0) + vs.countP (fun v => decide (v = .v1))
  let _cq := (if x = .vq then 1 else 0) + vs.countP (fun v => decide (v = .vq))
  if c0 ≥ decisionThreshold N F ∧ x = .v0 then (true, x)
  else if c1 ≥ decisionThreshold N F ∧ x = .v1 then (true, x)
  else if c0 ≥ adoptionThreshold N F then (false, .v0)
  else if c1 ≥ adoptionThreshold N F then (false, .v1)
  else (false, if coin then .v0 else .v1)

/-! ### Helper lemmas -/

lemma countValue_some (xv : Val) (msgs : List Msg) (t : Val) :
    countValue (some xv) msgs t =
      (if xv = t then 1 else 0) +
        (msgs.map Msg.value).countP (fun v => decide (v = t)) := by
  simp [countValue, List.countP_map, Function.comp_def]

lemma processPhaseOneMessages_killed (cfg : Cfg) (s : NodeState)
    (msgs : List Msg) : (processPhaseOneMessages cfg s msgs).killed = s.killed := by
  simp only [processPhaseOneMessages]
  split_ifs <;> rfl

lemma processPhaseOneMessages_decided (cfg : Cfg) (s : NodeState)
    (msgs : List Msg) :
    (processPhaseOneMessages cfg s msgs).decided = s.decided := by
  simp only [processPhaseOneMessages]
  split_ifs <;> rfl

lemma processPhaseOneMessages_k (cfg : Cfg) (s : NodeState)
    (msgs : List Msg) : (processPhaseOneMessages cfg s msgs).k = s.k := by
  simp only [processPhaseOneMessages]
  split_ifs <;> rfl

lemma processPhaseTwoMessages_killed (cfg : Cfg) (s : NodeState)
    (msgs : List Msg) (coin : Bool) :
    (processPhaseTwoMessages cfg s msgs coin).killed = s.killed := by
  simp only [processPhaseTwoMessages]
  split_ifs <;> rfl

lemma processPhaseTwoMessages_k (cfg : Cfg) (s : NodeState)
    (msgs : List Msg) (coin : Bool) :
    (processPhaseTwoMessages cfg s msgs coin).k = s.k := by
  simp only [processPhaseTwoMessages]
  split_ifs <;> rfl

/-- Phase 2 either leaves `decided` alone (and then only rewrites `x`)
or fires a decision: it sets `decided := some true`, leaves `x`
unchanged, and the guard forces the node's own `x` to be 0 or 1. -/
lemma processPhaseTwoMessages_cases (cfg : Cfg) (s : NodeState)
    (msgs : List Msg) (coin : Bool) :
    (processPhaseTwoMessages cfg s msgs coin).decided = s.decided ∨
      ((processPhaseTwoMessages cfg s msgs coin).decided = some true ∧
        (processPhaseTwoMessages cfg s msgs coin).x = s.x ∧
        (s.x = some .v0 ∨ s.x = some .v1)) := by
  simp only [processPhaseTwoMessages]
  split_ifs with hkil h1 h2 h3 h4 hcoin
  · exact Or.inl rfl
  · exact Or.inr ⟨rfl, rfl, Or.inl h1.2⟩
  · exact Or.inr ⟨rfl, rfl, Or.inr h2.2⟩
  · exact Or.inl rfl
  · exact Or.inl rfl
  · exact Or.inl rfl
  · exact Or.inl rfl

lemma runPhaseOne_decided (cfg : Cfg) (s : NodeState) (msgs : List Msg) :
    (runPhaseOne cfg s msgs).decided = s.decided := by
  simp only [runPhaseOne]
  split_ifs with h
  · rfl
  · exact processPhaseOneMessages_decided cfg s msgs

lemma runPhaseOne_killed (cfg : Cfg) (s : NodeState) (msgs : List Msg) :
    (runPhaseOne cfg s msgs).killed = s.killed := by
  simp only [runPhaseOne]
  split_ifs with h
  · rfl
  · exact processPhaseOneMessages_killed cfg s msgs

lemma runPhaseOne_k (cfg : Cfg) (s : NodeState) (msgs : List Msg) :
    (runPhaseOne cfg s msgs).k = s.k := by
  simp only [runPhaseOne]
  split_ifs with h
  · rfl
  · exact processPhaseOneMessages_k cfg s msgs

lemma runPhaseTwo_killed (cfg : Cfg) (s : NodeState) (msgs : List Msg)
    (coin : Bool) : (runPhaseTwo cfg s msgs coin).killed = s.killed := by
  simp only [runPhaseTwo]
  split_ifs with h
  · rfl
  · exact processPhaseTwoMessages_killed cfg s msgs coin

lemma runPhaseOne_of_decided (cfg : Cfg) (s : NodeState) (msgs : List Msg)
    (h : s.decided = some true) : runPhaseOne cfg s msgs = s := by
  simp only [runPhaseOne]
  rw [if_pos (Or.inr h)]

lemma runPhaseTwo_of_decided (cfg : Cfg) (s : NodeState) (msgs : List Msg)
    (coin : Bool) (h : s.decided = some true) :
    runPhaseTwo cfg s msgs coin = s := by
  simp only [runPhaseTwo]
  rw [if_pos (Or.inr h)]

lemma roundStep_of_decided (cfg : Cfg) (s : NodeState) (m1 m2 : List Msg)
    (coin : Bool) (h : s.decided = some true) :
    roundStep cfg s m1 m2 coin = s := by
  simp only [roundStep, runPhaseOne_of_decided cfg s m1 h,
    runPhaseTwo_of_decided cfg s m2 coin h]
  simp [h]

lemma runPhaseOne_of_live (cfg : Cfg) (s : NodeState) (msgs : List Msg)
    (hk : s.killed = false) (hd : s.decided = some false) :
    runPhaseOne cfg s msgs = processPhaseOneMessages cfg s msgs := by
  simp only [runPhaseOne]
  rw [if_neg (by simp [hk, hd])]

lemma runPhaseTwo_of_live (cfg : Cfg) (s : NodeState) (msgs : List Msg)
    (coin : Bool) (hk : s.killed = false) (hd : s.decided = some false) :
    runPhaseTwo cfg s msgs coin = processPhaseTwoMessages cfg s msgs coin := by
  simp only [runPhaseTwo]
  rw [if_neg (by simp [hk, hd])]

lemma runPhaseTwo_decided_cases (cfg : Cfg) (s : NodeState) (msgs : List Msg)
    (coin : Bool) :
    (runPhaseTwo cfg s msgs coin).decided = s.decided ∨
      (runPhaseTwo cfg s msgs coin).decided = some true := by
  simp only [runPhaseTwo]
  split_ifs with h
  · exact Or.inl rfl
  · rcases processPhaseTwoMessages_cases cfg s msgs coin with h1 | ⟨h1, _, _⟩
    · exact Or.inl h1
    · exact Or.inr h1

lemma roundStep_decided (cfg : Cfg) (s : NodeState) (m1 m2 : List Msg)
    (coin : Bool) :
    (roundStep cfg s m1 m2 coin).decided =
      (runPhaseTwo cfg (runPhaseOne cfg s m1) m2 coin).decided := by
  simp only [roundStep]
  split_ifs <;> rfl

lemma roundStep_x (cfg : Cfg) (s : NodeState) (m1 m2 : List Msg)
    (coin : Bool) :
    (roundStep cfg s m1 m2 coin).x =
      (runPhaseTwo cfg (runPhaseOne cfg s m1) m2 coin).x := by
  simp only [roundStep]
  split_ifs <;> rfl

/-- When the phase-2 tally of a live, undecided node does not fire a
decision, the `x` it writes is 0 or 1 (adoption or coin flip). -/
lemma processPhaseTwoMessages_undecided_binary (cfg : Cfg) (s : NodeState)
    (msgs : List Msg) (coin : Bool) (hk : s.killed = false)
    (_hd : s.decided = some false)
    (hnd : (processPhaseTwoMessages cfg s msgs coin).decided = some false) :
    (processPhaseTwoMessages cfg s msgs coin).x = some .v0 ∨
      (processPhaseTwoMessages cfg s msgs coin).x = some .v1 := by
  simp only [processPhaseTwoMessages, hk, Bool.false_eq_true, if_false] at hnd ⊢
  split_ifs at hnd ⊢ <;> simp_all

lemma runPhaseOne_of_killed (cfg : Cfg) (s : NodeState) (msgs : List Msg)
    (h : s.killed = true) : runPhaseOne cfg s msgs = s := by
  simp only [runPhaseOne]
  rw [if_pos (Or.inl h)]

lemma runPhaseTwo_of_killed (cfg : Cfg) (s : NodeState) (msgs : List Msg)
    (coin : Bool) (h : s.killed = true) : runPhaseTwo cfg s msgs coin = s := by
  simp only [runPhaseTwo]
  rw [if_pos (Or.inl h)]

lemma roundStep_of_killed (cfg : Cfg) (s : NodeState) (m1 m2 : List Msg)
    (coin : Bool) (h : s.killed = true) : roundStep cfg s m1 m2 coin = s := by
  simp only [roundStep, runPhaseOne_of_killed cfg s m1 h,
    runPhaseTwo_of_killed cfg s m2 coin h]
  simp [h]

lemma roundStep_killed (cfg : Cfg) (s : NodeState) (m1 m2 : List Msg)
    (coin : Bool) : (roundStep cfg s m1 m2 coin).killed = s.killed := by
  simp only [roundStep]
  split_ifs <;> simp [runPhaseTwo_killed, runPhaseOne_killed]

/-- Counting only 0s (or only 1s) is unaffected by first dropping every
entry whose value is neither 0 nor 1. -/
lemma countValue_filter_binary (x : Option Val) (msgs : List Msg) (t : Val)
    (ht : t = .v0 ∨ t = .v1) :
    countValue x
        (msgs.filter (fun m => decide (m.value = .v0) || decide (m.value = .v1)))
        t =
      countValue x msgs t := by
  unfold countValue
  congr 1
  induction msgs with
  | nil => rfl
  | cons m ms ih =>
    rcases ht with rfl | rfl <;>
      cases hv : m.value <;>
      simp [List.countP_cons, List.filter_cons, hv, ih]

/-! ### Claim theorems -/

/-- C2. Phase-1 tally correctness: on a live node whose own value is
`xv`, `processPhaseOneMessages` sets `x` exactly as the spec-side tally
does — count 0s and 1s (own value included iff it is 0 or 1), compare
with `majority = ⌊N/2⌋ + 1`, else `?` — and touches nothing else. -/
theorem phaseOne_tally_matches_spec (cfg : Cfg) (s : NodeState)
    (msgs : List Msg) (xv : Val) (hk : s.killed = false)
    (hx : s.x = some xv) :
    (processPhaseOneMessages cfg s msgs).x =
        some (phaseOneSpec cfg.N xv (msgs.map Msg.value)) ∧
      (processPhaseOneMessages cfg s msgs).decided = s.decided ∧
      (processPhaseOneMessages cfg s msgs).k = s.k ∧
      (processPhaseOneMessages cfg s msgs).killed = false := by
  refine ⟨?_, processPhaseOneMessages_decided cfg s msgs,
    processPhaseOneMessages_k cfg s msgs,
    by rw [processPhaseOneMessages_killed cfg s msgs, hk]⟩
  simp only [processPhaseOneMessages, phaseOneSpec]
  rw [hx, hk]
  simp only [countValue_some, Bool.false_eq_true, if_false]
  split_ifs <;> rfl

/-- Witness for `phaseOne_tally_matches_spec` at a concrete state. -/
theorem phaseOne_tally_matches_spec_witness :
    (processPhaseOneMessages ⟨3, 1, false, .v0⟩
        ⟨false, some .v1, some false, some 0⟩
        [⟨.v1, 2⟩, ⟨.v1, 0⟩, ⟨.junk, 1⟩]).x =
      some (phaseOneSpec 3 .v1
        ([⟨.v1, 2⟩, ⟨.v1, 0⟩, ⟨.junk, 1⟩].map Msg.value)) :=
  (phaseOne_tally_matches_spec ⟨3, 1, false, .v0⟩
    ⟨false, some .v1, some false, some 0⟩
    [⟨.v1, 2⟩, ⟨.v1, 0⟩, ⟨.junk, 1⟩] .v1 rfl rfl).1

/-- C1. Phase-2 tally correctness: on a live, undecided node whose own
value is `xv`, `processPhaseTwoMessages` produces exactly the
`(decided, x)` pair of the spec-side tally (decision thresholds
`⌊(N-F)/2⌋+1` and `⌊(N-F)/3⌋+1`, first-match rule order, `x` unchanged
on decision, coin flip as last resort). -/
theorem phaseTwo_tally_matches_spec (cfg : Cfg) (s : NodeState)
    (msgs : List Msg) (coin : Bool) (xv : Val) (hk : s.killed = false)
    (hd : s.decided = some false) (hx : s.x = some xv) :
    (processPhaseTwoMessages cfg s msgs coin).decided =
        some (phaseTwoSpec cfg.N cfg.F xv (msgs.map Msg.value) coin).1 ∧
      (processPhaseTwoMessages cfg s msgs coin).x =
        some (phaseTwoSpec cfg.N cfg.F xv (msgs.map Msg.value) coin).2 := by
  simp only [processPhaseTwoMessages, phaseTwoSpec]
  rw [hx, hk, hd]
  simp only [countValue_some, Option.some.injEq, Bool.false_eq_true, if_false]
  split_ifs <;> exact ⟨rfl, rfl⟩

/-- Witness for `phaseTwo_tally_matches_spec` at a concrete state. -/
theorem phaseTwo_tally_matches_spec_witness :
    (processPhaseTwoMessages ⟨3, 0, false, .v0⟩
        ⟨false, some .v0, some false, some 2⟩
        [⟨.v0, 1⟩, ⟨.vq, 2⟩] true).decided =
        some (phaseTwoSpec 3 0 .v0
          ([⟨.v0, 1⟩, ⟨.vq, 2⟩].map Msg.value) true).1 ∧
      (processPhaseTwoMessages ⟨3, 0, false, .v0⟩
        ⟨false, some .v0, some false, some 2⟩
        [⟨.v0, 1⟩, ⟨.vq, 2⟩] true).x =
        some (phaseTwoSpec 3 0 .v0
          ([⟨.v0, 1⟩, ⟨.vq, 2⟩].map Msg.value) true).2 :=
  phaseTwo_tally_matches_spec ⟨3, 0, false, .v0⟩
    ⟨false, some .v0, some false, some 2⟩
    [⟨.v0, 1⟩, ⟨.vq, 2⟩] true .v0 rfl rfl rfl

/-- C3. A decision is irreversible and freezes `x`: phase 1 never
touches `decided`; phase 2 leaves `decided` alone or raises it to
`some true`; a round step does the same; once decided, phase 1, phase 2
and the whole round step leave the state untouched; and at the moment
`decided` turns true the node's `x` is 0 or 1 and is not rewritten. -/
theorem decision_irreversible_and_freezes_x (cfg : Cfg) (s : NodeState)
    (m1 m2 msgs : List Msg) (coin : Bool) :
    (processPhaseOneMessages cfg s m1).decided = s.decided ∧
      ((processPhaseTwoMessages cfg s msgs coin).decided = s.decided ∨
        (processPhaseTwoMessages cfg s msgs coin).decided = some true) ∧
      ((roundStep cfg s m1 m2 coin).decided = s.decided ∨
        (roundStep cfg s m1 m2 coin).decided = some true) ∧
      (s.decided = some true →
        runPhaseOne cfg s m1 = s ∧
          runPhaseTwo cfg s msgs coin = s ∧
          roundStep cfg s m1 m2 coin = s) ∧
      (¬s.decided = some true →
        (processPhaseTwoMessages cfg s msgs coin).decided = some true →
        (processPhaseTwoMessages cfg s msgs coin).x = s.x ∧
          (s.x = some .v0 ∨ s.x = some .v1)) := by
  refine ⟨processPhaseOneMessages_decided cfg s m1, ?_, ?_, ?_, ?_⟩
  · rcases processPhaseTwoMessages_cases cfg s msgs coin with h | ⟨h, _, _⟩
    · exact Or.inl h
    · exact Or.inr h
  · rw [roundStep_decided]
    rcases runPhaseTwo_decided_cases cfg (runPhaseOne cfg s m1) m2 coin with
      h | h
    · rw [runPhaseOne_decided] at h
      exact Or.inl h
    · exact Or.inr h
  · intro hdec
    exact ⟨runPhaseOne_of_decided cfg s m1 hdec,
      runPhaseTwo_of_decided cfg s msgs coin hdec,
      roundStep_of_decided cfg s m1 m2 coin hdec⟩
  · intro hnd hdec
    rcases processPhaseTwoMessages_cases cfg s msgs coin with h | ⟨_, hx, hv⟩
    · rw [hdec] at h
      exact absurd h.symm hnd
    · exact ⟨hx, hv⟩

/-- Witness for `decision_irreversible_and_freezes_x`: a decided state
survives a whole round step unchanged. -/
theorem decision_irreversible_and_freezes_x_witness :
    roundStep ⟨3, 0, false, .v0⟩ ⟨false, some .v0, some true, some 1⟩
        [⟨.v1, 1⟩] [⟨.v1, 2⟩] true =
      ⟨false, some .v0, some true, some 1⟩ :=
  ((decision_irreversible_and_freezes_x ⟨3, 0, false, .v0⟩
      ⟨false, some .v0, some true, some 1⟩
      [⟨.v1, 1⟩] [⟨.v1, 2⟩] [⟨.v1, 2⟩] true).2.2.2.1 rfl).2.2

/-- C4. Round-start value invariant: a non-faulty initial state holds a
binary `x`; a live phase-1 tally always writes `x ∈ {0, 1, ?}`; a live
phase-2 tally keeps `x ∈ {0, 1, ?}`; and whenever the phase-2 tally
(or the whole round step) completes without deciding, the `x` it
leaves behind is 0 or 1 — never `?`. -/
theorem roundStart_value_invariant (cfg : Cfg) (s : NodeState)
    (m1 m2 msgs : List Msg) (coin : Bool) :
    (cfg.isFaulty = false →
        (cfg.initialValue = .v0 ∨ cfg.initialValue = .v1) →
        ((initState cfg).x = some .v0 ∨ (initState cfg).x = some .v1)) ∧
      (s.killed = false →
        ((processPhaseOneMessages cfg s m1).x = some .v0 ∨
          (processPhaseOneMessages cfg s m1).x = some .v1 ∨
          (processPhaseOneMessages cfg s m1).x = some .vq)) ∧
      (s.killed = false →
        (s.x = some .v0 ∨ s.x = some .v1 ∨ s.x = some .vq) →
        ((processPhaseTwoMessages cfg s msgs coin).x = some .v0 ∨
          (processPhaseTwoMessages cfg s msgs coin).x = some .v1 ∨
          (processPhaseTwoMessages cfg s msgs coin).x = some .vq)) ∧
      (s.killed = false → s.decided = some false →
        (processPhaseTwoMessages cfg s msgs coin).decided = some false →
        ((processPhaseTwoMessages cfg s msgs coin).x = some .v0 ∨
          (processPhaseTwoMessages cfg s msgs coin).x = some .v1)) ∧
      (s.killed = false → s.decided = some false →
        (roundStep cfg s m1 m2 coin).decided = some false →
        ((roundStep cfg s m1 m2 coin).x = some .v0 ∨
          (roundStep cfg s m1 m2 coin).x = some .v1)) := by
  refine ⟨?_, ?_, ?_, ?_, ?_⟩
  · intro hf hv
    rcases hv with hv | hv <;> simp [initState, hf, hv]
  · intro hk
    simp only [processPhaseOneMessages, hk, Bool.false_eq_true, if_false]
    split_ifs <;> simp
  · intro hk hx3
    simp only [processPhaseTwoMessages, hk, Bool.false_eq_true, if_false]
    split_ifs with h1 h2 h3 h4 hcoin
    · exact Or.inl h1.2
    · exact Or.inr (Or.inl h2.2)
    · exact Or.inl rfl
    · exact Or.inr (Or.inl rfl)
    · exact Or.inl rfl
    · exact Or.inr (Or.inl rfl)
  · intro hk hd hnd
    exact processPhaseTwoMessages_undecided_binary cfg s msgs coin hk hd hnd
  · intro hk hd hnd
    have h1k : (processPhaseOneMessages cfg s m1).killed = false := by
      rw [processPhaseOneMessages_killed]
      exact hk
    have h1d : (processPhaseOneMessages cfg s m1).decided = some false := by
      rw [processPhaseOneMessages_decided]
      exact hd
    rw [roundStep_decided, runPhaseOne_of_live cfg s m1 hk hd,
      runPhaseTwo_of_live cfg _ m2 coin h1k h1d] at hnd
    rw [roundStep_x, runPhaseOne_of_live cfg s m1 hk hd,
      runPhaseTwo_of_live cfg _ m2 coin h1k h1d]
    exact processPhaseTwoMessages_undecided_binary cfg _ m2 coin h1k h1d hnd

/-- Witness for `roundStart_value_invariant`: a round that does not
decide ends with a binary `x`. -/
theorem roundStart_value_invariant_witness :
    (roundStep ⟨4, 1, false, .v1⟩ ⟨false, some .v1, some false, some 0⟩
        [⟨.v0, 1⟩, ⟨.v1, 2⟩] [⟨.vq, 1⟩, ⟨.vq, 2⟩] false).x = some .v0 ∨
      (roundStep ⟨4, 1, false, .v1⟩ ⟨false, some .v1, some false, some 0⟩
        [⟨.v0, 1⟩, ⟨.v1, 2⟩] [⟨.vq, 1⟩, ⟨.vq, 2⟩] false).x = some .v1 :=
  (roundStart_value_invariant ⟨4, 1, false, .v1⟩
      ⟨false, some .v1, some false, some 0⟩
      [⟨.v0, 1⟩, ⟨.v1, 2⟩] [⟨.vq, 1⟩, ⟨.vq, 2⟩] [] false).2.2.2.2
    rfl rfl (by decide)

/-- C5. Phase-1 tie-break: counts with `c0 + c1 ≤ N` cannot both reach
`majority N = ⌊N/2⌋ + 1`, and when neither of the tally's counts
reaches the threshold the phase-1 tally writes `?`. -/
theorem phaseOne_no_tie (N c0 c1 : Nat) (cfg : Cfg) (s : NodeState)
    (msgs : List Msg) :
    (c0 + c1 ≤ N → ¬(c0 ≥ majority N ∧ c1 ≥ majority N)) ∧
      (s.killed = false →
        countValue s.x msgs .v0 < majority cfg.N →
        countValue s.x msgs .v1 < majority cfg.N →
        (processPhaseOneMessages cfg s msgs).x = some .vq) := by
  constructor
  · intro hle hboth
    have h0 := hboth.1
    have h1 := hboth.2
    unfold majority at h0 h1
    omega
  · intro hk h0 h1
    simp only [processPhaseOneMessages, hk, Bool.false_eq_true, if_false]
    rw [if_neg (by omega), if_neg (by omega)]

/-- Witness for `phaseOne_no_tie`: both conjuncts at concrete values. -/
theorem phaseOne_no_tie_witness :
    ¬(3 ≥ majority 5 ∧ 2 ≥ majority 5) ∧
      (processPhaseOneMessages ⟨3, 0, false, .v0⟩
        ⟨false, some .vq, some false, some 0⟩ [⟨.v0, 1⟩]).x = some .vq :=
  ⟨(phaseOne_no_tie 5 3 2 ⟨3, 0, false, .v0⟩
      ⟨false, some .vq, some false, some 0⟩ [⟨.v0, 1⟩]).1 (by decide),
    (phaseOne_no_tie 5 3 2 ⟨3, 0, false, .v0⟩
      ⟨false, some .vq, some false, some 0⟩ [⟨.v0, 1⟩]).2 rfl
      (by decide) (by decide)⟩

/-- C6. Single-node shortcut: with `N = 1` on a non-faulty node,
`startConsensus` decides immediately from the initial state without
running any round (`k` stays 0, `x` stays the initial value), and
`/getState` then reports exactly that record with status 200. -/
theorem singleNode_shortcut (cfg : Cfg) (sched : Nat → RoundInput)
    (fuel : Nat) (bufs1 bufs2 : Int → List Msg) (cr : Bool)
    (hN : cfg.N = 1) (hf : cfg.isFaulty = false) :
    startConsensus cfg sched fuel (initState cfg) =
        ⟨false, some cfg.initialValue, some true, some 0⟩ ∧
      handle cfg
          ⟨startConsensus cfg sched fuel (initState cfg), bufs1, bufs2, cr⟩
          .getStateOp =
        (200, ⟨⟨false, some cfg.initialValue, some true, some 0⟩,
          bufs1, bufs2, cr⟩) := by
  have h1 : startConsensus cfg sched fuel (initState cfg) =
      ⟨false, some cfg.initialValue, some true, some 0⟩ := by
    simp [startConsensus, hN, hf, initState]
  exact ⟨h1, by rw [h1]; rfl⟩

/-- Witness for `singleNode_shortcut` with `initialValue = 0`. -/
theorem singleNode_shortcut_witness :
    startConsensus ⟨1, 0, false, .v0⟩ (fun _ => ⟨[], [], true⟩) 3
        (initState ⟨1, 0, false, .v0⟩) =
      ⟨false, some .v0, some true, some 0⟩ :=
  (singleNode_shortcut ⟨1, 0, false, .v0⟩ (fun _ => ⟨[], [], true⟩) 3
    (fun _ => []) (fun _ => []) false rfl rfl).1

/-- C7. Rejected delivery is atomic: a `/message` request on a killed
or faulty node answers 500 and leaves the server state — in particular
both phase buffers — completely unchanged. -/
theorem rejected_message_atomic (cfg : Cfg) (st : ServerState) (b : Body)
    (h : st.node.killed = true ∨ cfg.isFaulty = true) :
    messageHandler cfg st b = (500, st) := by
  simp only [messageHandler]
  rw [if_pos h]

/-- Witness for `rejected_message_atomic` on a killed node. -/
theorem rejected_message_atomic_witness :
    messageHandler ⟨3, 0, false, .v0⟩
        ⟨⟨true, some .v0, some false, some 2⟩, fun _ => [], fun _ => [], false⟩
        ⟨1, .v1, 2, 0⟩ =
      (500, ⟨⟨true, some .v0, some false, some 2⟩,
        fun _ => [], fun _ => [], false⟩) :=
  rejected_message_atomic ⟨3, 0, false, .v0⟩
    ⟨⟨true, some .v0, some false, some 2⟩, fun _ => [], fun _ => [], false⟩
    ⟨1, .v1, 2, 0⟩ (Or.inl rfl)

/-- C8 counterexample: a malformed `/message` body (here `phase = 3`)
on a live non-faulty node is answered with status 200 — not with a
client error — and is silently dropped. -/
theorem malformed_message_returns_200 :
    messageHandler ⟨3, 0, false, .v0⟩
        ⟨initState ⟨3, 0, false, .v0⟩, fun _ => [], fun _ => [], false⟩
        ⟨3, .junk, 0, 0⟩ =
      (200, ⟨initState ⟨3, 0, false, .v0⟩,
        fun _ => [], fun _ => [], false⟩) := rfl

/-- C8 (amended). On a live non-faulty node the `/message` handler
answers 200 for every body, well-formed or not; a body whose `phase` is
neither 1 nor 2 leaves the server state unchanged (and is never
retried). -/
theorem malformed_message_accepted (cfg : Cfg) (st : ServerState) (b : Body)
    (hk : st.node.killed = false) (hf : cfg.isFaulty = false) :
    (messageHandler cfg st b).1 = 200 ∧
      (¬b.phase = 1 → ¬b.phase = 2 → (messageHandler cfg st b).2 = st) := by
  simp only [messageHandler]
  rw [if_neg (by simp [hk, hf])]
  constructor
  · split_ifs <;> rfl
  · intro h1 h2
    rw [if_neg h1, if_neg h2]

/-- Witness for `malformed_message_accepted` with `phase = 5`. -/
theorem malformed_message_accepted_witness :
    (messageHandler ⟨3, 0, false, .v0⟩
        ⟨initState ⟨3, 0, false, .v0⟩, fun _ => [], fun _ => [], false⟩
        ⟨5, .vq, 7, 1⟩).1 = 200 ∧
      (messageHandler ⟨3, 0, false, .v0⟩
        ⟨initState ⟨3, 0, false, .v0⟩, fun _ => [], fun _ => [], false⟩
        ⟨5, .vq, 7, 1⟩).2 =
        ⟨initState ⟨3, 0, false, .v0⟩, fun _ => [], fun _ => [], false⟩ :=
  ⟨(malformed_message_accepted ⟨3, 0, false, .v0⟩
      ⟨initState ⟨3, 0, false, .v0⟩, fun _ => [], fun _ => [], false⟩
      ⟨5, .vq, 7, 1⟩ rfl rfl).1,
    (malformed_message_accepted ⟨3, 0, false, .v0⟩
      ⟨initState ⟨3, 0, false, .v0⟩, fun _ => [], fun _ => [], false⟩
      ⟨5, .vq, 7, 1⟩ rfl rfl).2 (by decide) (by decide)⟩

/-- C9. Stop is permanent: `/stop` answers 200 and sets `killed`; no
handler and no driver step ever clears `killed`; on a killed node
`/getState` and `/stop` still answer 200 while `/start` answers 500
without touching the state (so the consensus loop is never
restarted). -/
theorem stop_permanent (cfg : Cfg) (st : ServerState) (op : Op)
    (s2 : NodeState) (m1 m2 : List Msg) (coin : Bool) :
    (stopHandler st).1 = 200 ∧
      (stopHandler st).2.node.killed = true ∧
      (st.node.killed = true → (handle cfg st op).2.node.killed = true) ∧
      handle cfg st .getStateOp = (200, st) ∧
      handle cfg st .stopOp = (200, (stopHandler st).2) ∧
      (st.node.killed = true → startHandler cfg st = (500, st)) ∧
      (s2.killed = true → roundStep cfg s2 m1 m2 coin = s2) ∧
      (roundStep cfg s2 m1 m2 coin).killed = s2.killed := by
  refine ⟨rfl, rfl, ?_, rfl, rfl, ?_, ?_, roundStep_killed cfg s2 m1 m2 coin⟩
  · intro h
    cases op <;>
      simp only [handle, startHandler, stopHandler, messageHandler] <;>
      first
        | exact h
        | (split_ifs <;> simp_all)
  · intro h
    simp only [startHandler]
    rw [if_pos (Or.inr h)]
  · exact roundStep_of_killed cfg s2 m1 m2 coin

/-- Witness for `stop_permanent`: on a killed node `/start` fails with
500 and changes nothing. -/
theorem stop_permanent_witness :
    startHandler ⟨3, 0, false, .v0⟩
        ⟨⟨true, some .v1, some false, some 4⟩,
          fun _ => [], fun _ => [], false⟩ =
      (500, ⟨⟨true, some .v1, some false, some 4⟩,
        fun _ => [], fun _ => [], false⟩) :=
  (stop_permanent ⟨3, 0, false, .v0⟩
      ⟨⟨true, some .v1, some false, some 4⟩, fun _ => [], fun _ => [], false⟩
      .startOp ⟨true, some .v1, some false, some 4⟩ [] [] true).2.2.2.2.2.1 rfl

/-- C10. The phase-2 outcome ignores non-binary entries: with a binary
own value, tallying any message list gives exactly the same resulting
state as tallying only its 0/1 entries — `?` and junk values (and the
`?` count the code computes) never influence the decision, the
adoption, or the coin fallback. -/
theorem phaseTwo_ignores_non_binary (cfg : Cfg) (s : NodeState)
    (msgs : List Msg) (coin : Bool)
    (hx : s.x = some .v0 ∨ s.x = some .v1) :
    processPhaseTwoMessages cfg s msgs coin =
      processPhaseTwoMessages cfg s
        (msgs.filter (fun m => decide (m.value = .v0) || decide (m.value = .v1)))
        coin := by
  have _hx := hx
  simp only [processPhaseTwoMessages]
  rw [countValue_filter_binary s.x msgs .v0 (Or.inl rfl),
    countValue_filter_binary s.x msgs .v1 (Or.inr rfl)]

/-- Witness for `phaseTwo_ignores_non_binary`: dropping a `?` and a
junk message changes nothing. -/
theorem phaseTwo_ignores_non_binary_witness :
    processPhaseTwoMessages ⟨5, 1, false, .v0⟩
        ⟨false, some .v0, some false, some 0⟩
        [⟨.vq, 1⟩, ⟨.v0, 2⟩, ⟨.junk, 3⟩] true =
      processPhaseTwoMessages ⟨5, 1, false, .v0⟩
        ⟨false, some .v0, some false, some 0⟩
        ([⟨.vq, 1⟩, ⟨.v0, 2⟩, ⟨.junk, 3⟩].filter
          (fun m => decide (m.value = .v0) || decide (m.value = .v1))) true :=
  phaseTwo_ignores_non_binary ⟨5, 1, false, .v0⟩
    ⟨false, some .v0, some false, some 0⟩
    [⟨.vq, 1⟩, ⟨.v0, 2⟩, ⟨.junk, 3⟩] true (Or.inl rfl)

end BenOrNode
